import Mathlib

/-
  Verification development for the trillboards-content video pipeline.

  Shallow embedding of:
  - scripts/veo_chain_generator.py  (VEOChainGenerator.generate_scene_chain,
    _generate_single_scene, _poll_operation_completion)
  - scripts/ffmpeg_pipeline.py      (FFmpegPipeline._stitch_with_crossfades_only,
    _normalize_videos, _fallback_basic_concat)
  - scripts/moviepy_crossfade_pipeline.py (MoviePyCrossfadePipeline.crossfade_scenes,
    add_text_overlays)
  - scripts/moviepy_pipeline.py     (MoviePyPipeline._add_text_overlays_moviepy)

  External effects (the VEO REST backend, ffmpeg/gsutil subprocesses, MoviePy
  rendering) are modelled as oracle parameters; the control flow, counters and
  arithmetic are translated from the Python source.  Timing arithmetic uses ℚ:
  every constant in the source (8.0, 0.5, 30, 0.8, 0.85, 0.95) and every value
  derived from them is exactly representable, so rational arithmetic agrees with
  the Python float arithmetic on all quantities the claims mention.
-/

namespace Trillboards

namespace VeoChain

/-- One observable action of the chain generator: a backoff sleep
(`time.sleep(30)` before a retry) or one submission of a scene to the VEO
backend (`_generate_single_scene`), recording the 0-based scene index, the
`retry_count` at submission time, and whether the request instance carries a
continuity image (`instance_data["image"]` is attached iff `previous_frame`
is a dict). -/
inductive Event where
  | sleep (seconds : ℕ)
  | submit (sceneIdx : ℕ) (attempt : ℕ) (hasImage : Bool)
  deriving Repr, DecidableEq

/-- Retry budget `max_retries = 3` from `generate_scene_chain`. -/
def max_retries : ℕ := 3

/-- The retry loop of `generate_scene_chain` for one scene:
`while retry_count <= max_retries and not scene_file`, sleeping 30 seconds
before every retry (`if retry_count > 0: time.sleep(30)`).  `g a img` is the
outcome of `_generate_single_scene` for this scene at attempt `a` with
continuity flag `img` (`none` = the call returned `None`).  The second
argument pair is (current `retry_count`, remaining permitted iterations
`max_retries + 1 - retry_count`); recursion is structural on the latter. -/
def retryLoop (g : ℕ → Bool → Option String) (sceneIdx : ℕ) (img : Bool) :
    ℕ → ℕ → List Event × Option String
  | _, 0 => ([], none)
  | retryCount, fuel + 1 =>
    let pre : List Event := if retryCount = 0 then [] else [Event.sleep 30]
    match g retryCount img with
    | some f => (pre ++ [Event.submit sceneIdx retryCount img], some f)
    | none =>
      let rest := retryLoop g sceneIdx img (retryCount + 1) fuel
      (pre ++ Event.submit sceneIdx retryCount img :: rest.1, rest.2)

/-- All attempts for one scene: the retry loop entered with `retry_count = 0`
and `max_retries + 1` permitted iterations (attempts 0, 1, 2, 3). -/
def sceneRun (gen : ℕ → ℕ → Bool → Option String) (sceneIdx : ℕ) (img : Bool) :
    List Event × Option String :=
  retryLoop (gen sceneIdx) sceneIdx img 0 (max_retries + 1)

/-- The scene loop of `generate_scene_chain`: scenes are processed in order;
on per-scene failure after retries the whole chain returns `None`; after a
success that is not the last scene (`if i < len(scenes)`), the last frame of
the clip is extracted (`extract f = true` iff `_extract_last_frame` returned a
dict) and becomes the next scene's continuity input, `extract` failure being
non-fatal (`previous_frame = None`).  Arguments: current 0-based scene index,
number of scenes still to process, current continuity flag. -/
def chainLoop (gen : ℕ → ℕ → Bool → Option String) (extract : String → Bool) :
    ℕ → ℕ → Bool → List Event × Option (List String)
  | _, 0, _ => ([], some [])
  | i, n + 1, hasPrev =>
    match (sceneRun gen i hasPrev).2 with
    | none => ((sceneRun gen i hasPrev).1, none)
    | some f =>
      let nextPrev := if 0 < n then extract f else false
      let rest := chainLoop gen extract (i + 1) n nextPrev
      ((sceneRun gen i hasPrev).1 ++ rest.1, rest.2.map fun l => f :: l)

/-- One scene descriptor of `blueprint["scene_breakdown"]` (the fields the
chain generator reads). -/
structure Scene where
  scene_number : ℕ
  duration_sec : ℚ
  scene_type : String
  prompt_text : String
  deriving Repr, DecidableEq

/-- The blueprint as read by `generate_scene_chain`; `scene_breakdown = none`
models a blueprint JSON object without that key (Python
`blueprint.get('scene_breakdown', [])`). -/
structure Blueprint where
  id : String
  scene_breakdown : Option (List Scene)
  deriving Repr, DecidableEq

/-- Result of `generate_scene_chain`: the `raise ValueError` on a missing or
empty scene list, or the returned value (`some clips` on success, `none` when
the function returns `None`). -/
inductive ChainOutcome where
  | valueError
  | result (clips : Option (List String))
  deriving Repr, DecidableEq

/-- VEOChainGenerator.generate_scene_chain: reads
`blueprint.get('scene_breakdown', [])`, raises `ValueError` if it is empty,
and otherwise runs the scene loop starting with no continuity frame
(`previous_frame = None`).  The event list is the ordered trace of backend
submissions and backoff sleeps. -/
def generate_scene_chain (gen : ℕ → ℕ → Bool → Option String)
    (extract : String → Bool) (bp : Blueprint) : List Event × ChainOutcome :=
  let scenes := bp.scene_breakdown.getD []
  if scenes.isEmpty then ([], ChainOutcome.valueError)
  else
    let r := chainLoop gen extract 0 scenes.length false
    (r.1, ChainOutcome.result r.2)

/-- Specification view of the chain: for scene `k` (0-based, out of `total`),
the continuity flag its submissions carry and the clip it produces (`none`
when the scene fails or is never reached because an earlier scene failed).
Derived from the same `gen`/`extract` oracles as `chainLoop`. -/
def sceneState (gen : ℕ → ℕ → Bool → Option String) (extract : String → Bool)
    (total : ℕ) : ℕ → Bool × Option String
  | 0 => (false, (sceneRun gen 0 false).2)
  | k + 1 =>
    match (sceneState gen extract total k).2 with
    | none => (false, none)
    | some f =>
      let img := if k + 1 < total then extract f else false
      (img, (sceneRun gen (k + 1) img).2)

/-- The event trace of an always-failing scene: 1 + max_retries = 4 submissions
(attempts 0..3), with a 30-second backoff sleep before each retry. -/
def failTrace (k : ℕ) (img : Bool) : List Event :=
  [Event.submit k 0 img, Event.sleep 30, Event.submit k 1 img, Event.sleep 30,
   Event.submit k 2 img, Event.sleep 30, Event.submit k 3 img]

/-- Number of submissions of scene `k` in a trace. -/
def submitsFor (k : ℕ) (evs : List Event) : ℕ :=
  (evs.filter fun e => match e with
    | Event.submit j _ _ => j == k
    | _ => false).length

lemma retryLoop_events (g : ℕ → Bool → Option String) (i : ℕ) (img : Bool) :
    ∀ fuel rc e, e ∈ (retryLoop g i img rc fuel).1 →
      e = Event.sleep 30 ∨ ∃ a, e = Event.submit i a img ∧ rc ≤ a ∧ a < rc + fuel := by
  intro fuel
  induction fuel with
  | zero => intro rc e he; simp [retryLoop] at he
  | succ n ih =>
    intro rc e he
    have hsleep : ∀ x ∈ (if rc = 0 then ([] : List Event) else [Event.sleep 30]),
        x = Event.sleep 30 := by
      intro x hx
      by_cases h : rc = 0
      · simp [h] at hx
      · simp [h] at hx; exact hx
    cases hg : g rc img with
    | some f =>
      simp only [retryLoop, hg] at he
      rcases List.mem_append.1 he with h1 | h2
      · exact Or.inl (hsleep _ h1)
      · right; exact ⟨rc, by simpa using h2, le_refl rc, by omega⟩
    | none =>
      simp only [retryLoop, hg] at he
      rcases List.mem_append.1 he with h1 | h2
      · exact Or.inl (hsleep _ h1)
      · rcases List.mem_cons.1 h2 with h3 | h4
        · right; exact ⟨rc, h3, le_refl rc, by omega⟩
        · rcases ih (rc + 1) e h4 with h | ⟨a, ha, h5, h6⟩
          · exact Or.inl h
          · right; exact ⟨a, ha, by omega, by omega⟩

lemma retryLoop_first_submit (g : ℕ → Bool → Option String) (i : ℕ) (img : Bool)
    (rc n : ℕ) : Event.submit i rc img ∈ (retryLoop g i img rc (n + 1)).1 := by
  cases hg : g rc img <;> simp [retryLoop, hg]

lemma retryLoop_success (g : ℕ → Bool → Option String) (i : ℕ) (img : Bool) :
    ∀ fuel rc f, (retryLoop g i img rc fuel).2 = some f →
      ∃ a, rc ≤ a ∧ a < rc + fuel ∧ g a img = some f := by
  intro fuel
  induction fuel with
  | zero => intro rc f h; simp [retryLoop] at h
  | succ n ih =>
    intro rc f h
    cases hg : g rc img with
    | some f' =>
      simp only [retryLoop, hg] at h
      exact ⟨rc, le_refl rc, by omega, by rw [hg, h]⟩
    | none =>
      simp only [retryLoop, hg] at h
      obtain ⟨a, h1, h2, h3⟩ := ih (rc + 1) f h
      exact ⟨a, by omega, by omega, h3⟩

lemma retryLoop_allFail (g : ℕ → Bool → Option String) (i : ℕ) (img : Bool)
    (hg : ∀ a, g a img = none) :
    retryLoop g i img 0 4 = (failTrace i img, none) := by
  simp [retryLoop, hg, failTrace]

lemma sceneRun_events (gen : ℕ → ℕ → Bool → Option String) (i : ℕ) (img : Bool)
    (e : Event) (he : e ∈ (sceneRun gen i img).1) :
    e = Event.sleep 30 ∨ ∃ a, e = Event.submit i a img ∧ a ≤ max_retries := by
  rcases retryLoop_events (gen i) i img (max_retries + 1) 0 e he with h | ⟨a, h1, _, h3⟩
  · exact Or.inl h
  · exact Or.inr ⟨a, h1, by omega⟩

lemma sceneState_succ_of_some (gen : ℕ → ℕ → Bool → Option String)
    (extract : String → Bool) (total k : ℕ) (f : String)
    (hk : (sceneState gen extract total k).2 = some f) :
    sceneState gen extract total (k + 1) =
      (if k + 1 < total then extract f else false,
       (sceneRun gen (k + 1) (if k + 1 < total then extract f else false)).2) := by
  simp [sceneState, hk]

lemma sceneState_run_of_some (gen : ℕ → ℕ → Bool → Option String)
    (extract : String → Bool) (total j : ℕ) (f : String)
    (h : (sceneState gen extract total j).2 = some f) :
    (sceneRun gen j ((sceneState gen extract total j).1)).2 = some f := by
  cases j with
  | zero => simpa [sceneState] using h
  | succ k =>
    cases hk : (sceneState gen extract total k).2 with
    | none => rw [sceneState, hk] at h; simp at h
    | some f' =>
      rw [sceneState, hk] at h ⊢
      simpa using h

lemma chain_step_inv (gen : ℕ → ℕ → Bool → Option String) (extract : String → Bool)
    (total i : ℕ) (hp : Bool) (n : ℕ) (f : String) (htot : i + (n + 1) = total)
    (h1 : hp = (sceneState gen extract total i).1)
    (h2 : (sceneState gen extract total i).2 = (sceneRun gen i hp).2)
    (hrun : (sceneRun gen i hp).2 = some f) :
    ((if 0 < n then extract f else false) = (sceneState gen extract total (i + 1)).1) ∧
    (sceneState gen extract total (i + 1)).2 =
      (sceneRun gen (i + 1) (if 0 < n then extract f else false)).2 := by
  have hsf : (sceneState gen extract total i).2 = some f := h2.trans hrun
  have hstep := sceneState_succ_of_some gen extract total i f hsf
  by_cases h0 : 0 < n
  · have hlt : i + 1 < total := by omega
    rw [hstep]; simp [hlt, h0]
  · have hlt : ¬ (i + 1 < total) := by omega
    rw [hstep]; simp [hlt, h0]

lemma chainLoop_result (gen : ℕ → ℕ → Bool → Option String) (extract : String → Bool)
    (total : ℕ) :
    ∀ n i hp, i + n = total →
      hp = (sceneState gen extract total i).1 →
      (sceneState gen extract total i).2 = (sceneRun gen i hp).2 →
      ∀ files, (chainLoop gen extract i n hp).2 = some files →
        files.length = n ∧
        ∀ j, j < n → files.get? j = (sceneState gen extract total (i + j)).2 := by
  intro n
  induction n with
  | zero =>
    intro i hp _ _ _ files hres
    simp only [chainLoop] at hres
    have : files = [] := by simpa using hres.symm
    subst this
    exact ⟨rfl, fun j hj => absurd hj (by omega)⟩
  | succ n ih =>
    intro i hp htot h1 h2 files hres
    cases hrun : (sceneRun gen i hp).2 with
    | none => simp only [chainLoop, hrun] at hres; simp at hres
    | some f =>
      simp only [chainLoop, hrun] at hres
      obtain ⟨files', hrest, hfiles⟩ := Option.map_eq_some'.1 hres
      have hinv := chain_step_inv gen extract total i hp n f htot h1 h2 hrun
      obtain ⟨hlen, hget⟩ :=
        ih (i + 1) (if 0 < n then extract f else false) (by omega) hinv.1 hinv.2 files' hrest
      subst hfiles
      refine ⟨by simp [hlen], ?_⟩
      intro j hj
      cases j with
      | zero =>
        have hsf : (sceneState gen extract total i).2 = some f := h2.trans hrun
        simpa using hsf.symm
      | succ j' =>
        have harr : i + (j' + 1) = (i + 1) + j' := by omega
        rw [harr]
        simpa using hget j' (by omega)

lemma chainLoop_events (gen : ℕ → ℕ → Bool → Option String) (extract : String → Bool)
    (total : ℕ) :
    ∀ n i hp, i + n = total →
      hp = (sceneState gen extract total i).1 →
      (sceneState gen extract total i).2 = (sceneRun gen i hp).2 →
      ∀ e ∈ (chainLoop gen extract i n hp).1,
        e = Event.sleep 30 ∨ ∃ k a img, e = Event.submit k a img ∧ i ≤ k ∧ k < total ∧
          a ≤ max_retries ∧ img = (sceneState gen extract total k).1 := by
  intro n
  induction n with
  | zero => intro i hp _ _ _ e he; simp [chainLoop] at he
  | succ n ih =>
    intro i hp htot h1 h2 e he
    cases hrun : (sceneRun gen i hp).2 with
    | none =>
      simp only [chainLoop, hrun] at he
      rcases sceneRun_events gen i hp e he with h | ⟨a, ha, ha3⟩
      · exact Or.inl h
      · exact Or.inr ⟨i, a, hp, ha, le_refl i, by omega, ha3, h1⟩
    | some f =>
      simp only [chainLoop, hrun] at he
      rcases List.mem_append.1 he with h | h
      · rcases sceneRun_events gen i hp e h with h' | ⟨a, ha, ha3⟩
        · exact Or.inl h'
        · exact Or.inr ⟨i, a, hp, ha, le_refl i, by omega, ha3, h1⟩
      · have hinv := chain_step_inv gen extract total i hp n f htot h1 h2 hrun
        rcases ih (i + 1) (if 0 < n then extract f else false) (by omega) hinv.1 hinv.2 e h with
          h' | ⟨k, a, img, h3, h4, h5, h6, h7⟩
        · exact Or.inl h'
        · exact Or.inr ⟨k, a, img, h3, by omega, h5, h6, h7⟩

lemma chainLoop_attempts (gen : ℕ → ℕ → Bool → Option String) (extract : String → Bool)
    (total : ℕ) :
    ∀ n i hp, i + n = total →
      hp = (sceneState gen extract total i).1 →
      (sceneState gen extract total i).2 = (sceneRun gen i hp).2 →
      ∀ k, i ≤ k → k < total →
        (∀ m, i ≤ m → m < k → ((sceneState gen extract total m).2).isSome) →
        Event.submit k 0 ((sceneState gen extract total k).1) ∈
          (chainLoop gen extract i n hp).1 := by
  intro n
  induction n with
  | zero => intro i hp htot _ _ k hik hk _; omega
  | succ n ih =>
    intro i hp htot h1 h2 k hik hk hsucc
    by_cases hki : k = i
    · subst hki
      have hfirst : Event.submit k 0 hp ∈ (sceneRun gen k hp).1 :=
        retryLoop_first_submit (gen k) k hp 0 max_retries
      rw [← h1]
      cases hrun : (sceneRun gen k hp).2 with
      | none => simp only [chainLoop, hrun]; exact hfirst
      | some f => simp only [chainLoop, hrun]; exact List.mem_append.2 (Or.inl hfirst)
    · have hik' : i < k := by omega
      have hsome := hsucc i (le_refl i) hik'
      obtain ⟨f, hf⟩ := Option.isSome_iff_exists.1 hsome
      have hrun : (sceneRun gen i hp).2 = some f := by rw [← h2]; exact hf
      have hinv := chain_step_inv gen extract total i hp n f htot h1 h2 hrun
      have hmem := ih (i + 1) (if 0 < n then extract f else false) (by omega) hinv.1 hinv.2 k
        (by omega) hk
        (fun m hm1 hm2 => hsucc m (by omega) hm2)
      simp only [chainLoop, hrun]
      exact List.mem_append.2 (Or.inr hmem)

lemma chainLoop_fail (gen : ℕ → ℕ → Bool → Option String) (extract : String → Bool)
    (total : ℕ) :
    ∀ n i hp, i + n = total →
      hp = (sceneState gen extract total i).1 →
      (sceneState gen extract total i).2 = (sceneRun gen i hp).2 →
      ∀ k, i ≤ k → k < total →
        (∀ m, i ≤ m → m < k → ((sceneState gen extract total m).2).isSome) →
        (∀ a img, gen k a img = none) →
        ∃ pre, (chainLoop gen extract i n hp).1 =
            pre ++ failTrace k ((sceneState gen extract total k).1) ∧
          (chainLoop gen extract i n hp).2 = none ∧
          ∀ k' a img, Event.submit k' a img ∈ pre → i ≤ k' ∧ k' < k := by
  intro n
  induction n with
  | zero => intro i hp htot _ _ k hik hk _ _; omega
  | succ n ih =>
    intro i hp htot h1 h2 k hik hk hsucc hfail
    by_cases hki : k = i
    · subst hki
      have hrun : sceneRun gen k hp = (failTrace k hp, none) :=
        retryLoop_allFail (gen k) k hp (fun a => hfail a hp)
      have hrun2 : (sceneRun gen k hp).2 = none := by rw [hrun]
      have hrun1 : (sceneRun gen k hp).1 = failTrace k hp := by rw [hrun]
      refine ⟨[], ?_, ?_, ?_⟩
      · simp only [chainLoop, hrun2]
        rw [hrun1, ← h1]
        simp
      · simp only [chainLoop, hrun2]
      · intro k' a img h; simp at h
    · have hik' : i < k := by omega
      have hsome := hsucc i (le_refl i) hik'
      obtain ⟨f, hf⟩ := Option.isSome_iff_exists.1 hsome
      have hrun : (sceneRun gen i hp).2 = some f := by rw [← h2]; exact hf
      have hinv := chain_step_inv gen extract total i hp n f htot h1 h2 hrun
      obtain ⟨pre', hpre1, hpre2, hpre3⟩ :=
        ih (i + 1) (if 0 < n then extract f else false) (by omega) hinv.1 hinv.2 k (by omega) hk
          (fun m hm1 hm2 => hsucc m (by omega) hm2) hfail
      refine ⟨(sceneRun gen i hp).1 ++ pre', ?_, ?_, ?_⟩
      · simp only [chainLoop, hrun]
        rw [hpre1, List.append_assoc]
      · simp only [chainLoop, hrun]
        rw [hpre2]
        rfl
      · intro k' a img hm
        rcases List.mem_append.1 hm with h | h
        · rcases sceneRun_events gen i hp _ h with h' | ⟨a', ha', _⟩
          · exact absurd h' (by simp)
          · injection ha' with e1 e2 e3
            omega
        · obtain ⟨hh1, hh2⟩ := hpre3 k' a img h
          exact ⟨by omega, hh2⟩

lemma generate_chain_fst (gen : ℕ → ℕ → Bool → Option String) (extract : String → Bool)
    (bp : Blueprint) (h : (bp.scene_breakdown.getD []).isEmpty = false) :
    (generate_scene_chain gen extract bp).1 =
      (chainLoop gen extract 0 (bp.scene_breakdown.getD []).length false).1 := by
  simp [generate_scene_chain, h]

lemma generate_chain_snd (gen : ℕ → ℕ → Bool → Option String) (extract : String → Bool)
    (bp : Blueprint) (h : (bp.scene_breakdown.getD []).isEmpty = false) :
    (generate_scene_chain gen extract bp).2 =
      ChainOutcome.result (chainLoop gen extract 0 (bp.scene_breakdown.getD []).length false).2 := by
  simp [generate_scene_chain, h]

lemma notEmpty_of_lt_length (bp : Blueprint) (k : ℕ)
    (hk : k < (bp.scene_breakdown.getD []).length) :
    (bp.scene_breakdown.getD []).isEmpty = false := by
  cases h : bp.scene_breakdown.getD [] with
  | nil => rw [h] at hk; simp at hk
  | cons a l => rfl

lemma submitsFor_append (k : ℕ) (l1 l2 : List Event) :
    submitsFor k (l1 ++ l2) = submitsFor k l1 + submitsFor k l2 := by
  simp [submitsFor, List.filter_append]

lemma submitsFor_failTrace (k : ℕ) (img : Bool) :
    submitsFor k (failTrace k img) = 1 + max_retries := by
  simp [submitsFor, failTrace, max_retries]

lemma submitsFor_eq_zero (k : ℕ) (l : List Event)
    (h : ∀ k' a img, Event.submit k' a img ∈ l → k' ≠ k) :
    submitsFor k l = 0 := by
  rw [submitsFor, List.length_eq_zero, List.filter_eq_nil_iff]
  intro e he
  cases e with
  | sleep s => simp
  | submit k' a img =>
    have := h k' a img he
    simp [this]

/-- C1: for every blueprint whose scene_breakdown lists N scenes, if
generate_scene_chain returns successfully (a ChainOutcome.result with a clip
list rather than None), the list contains exactly N clip references and its
j-th element is the clip produced for the j-th scene of scene_breakdown: it
is the value returned by that scene's successful generation attempt, made
with that scene's continuity flag. -/
theorem C1_successful_chain_returns_one_clip_per_scene
    (gen : ℕ → ℕ → Bool → Option String) (extract : String → Bool) (bp : Blueprint)
    (files : List String)
    (hres : (generate_scene_chain gen extract bp).2 = ChainOutcome.result (some files)) :
    files.length = (bp.scene_breakdown.getD []).length ∧
    ∀ j, j < (bp.scene_breakdown.getD []).length →
      ∃ f, files.get? j = some f ∧
        (sceneState gen extract (bp.scene_breakdown.getD []).length j).2 = some f ∧
        ∃ a, a ≤ max_retries ∧
          gen j a ((sceneState gen extract (bp.scene_breakdown.getD []).length j).1) = some f := by
  cases hemp : (bp.scene_breakdown.getD []).isEmpty with
  | true => simp [generate_scene_chain, hemp] at hres
  | false =>
    rw [generate_chain_snd gen extract bp hemp] at hres
    simp only [ChainOutcome.result.injEq] at hres
    obtain ⟨hlen, hget⟩ :=
      chainLoop_result gen extract (bp.scene_breakdown.getD []).length
        (bp.scene_breakdown.getD []).length 0 false (by omega) rfl rfl files hres
    refine ⟨hlen, ?_⟩
    intro j hj
    have hj' := hget j hj
    rw [Nat.zero_add] at hj'
    cases hf : files.get? j with
    | none =>
      rw [List.get?_eq_none] at hf
      omega
    | some f =>
      rw [hf] at hj'
      have hst : (sceneState gen extract (bp.scene_breakdown.getD []).length j).2 = some f :=
        hj'.symm
      have hrunf := sceneState_run_of_some gen extract (bp.scene_breakdown.getD []).length j f hst
      obtain ⟨a, _, ha2, ha3⟩ :=
        retryLoop_success (gen j) j
          ((sceneState gen extract (bp.scene_breakdown.getD []).length j).1)
          (max_retries + 1) 0 f hrunf
      exact ⟨f, rfl, hst, a, by omega, ha3⟩

/-- C2: for a scene k whose generation attempt always fails (and which the
chain reaches, all earlier scenes succeeding), generate_scene_chain makes
exactly 1 + max_retries = 4 submissions of that scene, sleeping the fixed 30
seconds before each of the 3 retries, then aborts the whole chain: the
returned value is None (no partial clip list) and no scene after k is ever
submitted. -/
theorem C2_retry_exhaustion_aborts_whole_chain
    (gen : ℕ → ℕ → Bool → Option String) (extract : String → Bool) (bp : Blueprint) (k : ℕ)
    (hk : k < (bp.scene_breakdown.getD []).length)
    (hprev : ∀ m, m < k →
      ((sceneState gen extract (bp.scene_breakdown.getD []).length m).2).isSome)
    (hfail : ∀ a img, gen k a img = none) :
    (generate_scene_chain gen extract bp).2 = ChainOutcome.result none ∧
    submitsFor k (generate_scene_chain gen extract bp).1 = 1 + max_retries ∧
    (∀ k' a img, Event.submit k' a img ∈ (generate_scene_chain gen extract bp).1 → k' ≤ k) ∧
    ∃ pre, (generate_scene_chain gen extract bp).1 =
        pre ++ failTrace k
          ((sceneState gen extract (bp.scene_breakdown.getD []).length k).1) ∧
      ∀ k' a img, Event.submit k' a img ∈ pre → k' < k := by
  have hemp := notEmpty_of_lt_length bp k hk
  obtain ⟨pre, hpre, hnone, hprelt⟩ :=
    chainLoop_fail gen extract (bp.scene_breakdown.getD []).length
      (bp.scene_breakdown.getD []).length 0 false (by omega) rfl rfl k (by omega) hk
      (fun m _ hm2 => hprev m hm2) hfail
  refine ⟨?_, ?_, ?_, pre, ?_, ?_⟩
  · rw [generate_chain_snd gen extract bp hemp, hnone]
  · rw [generate_chain_fst gen extract bp hemp, hpre, submitsFor_append,
      submitsFor_failTrace,
      submitsFor_eq_zero k pre (fun k' a img hm => by have := (hprelt k' a img hm).2; omega)]
    omega
  · intro k' a img hm
    rw [generate_chain_fst gen extract bp hemp, hpre] at hm
    rcases List.mem_append.1 hm with h | h
    · have := (hprelt k' a img h).2; omega
    · simp [failTrace] at h
      rcases h with ⟨h, -, -⟩ | ⟨h, -, -⟩ | ⟨h, -, -⟩ | ⟨h, -, -⟩ <;> omega
  · rw [generate_chain_fst gen extract bp hemp]; exact hpre
  · intro k' a img hm; exact (hprelt k' a img hm).2

/-- C3: a submission of scene 1 (index 0) never carries a continuity image;
a submission of scene k+1 carries a continuity image if and only if scene k
produced a clip AND last-frame extraction from that clip succeeded.
Extraction failure is non-fatal: when scene k succeeded but extraction
failed, scene k+1 is still submitted, without a continuity image. -/
theorem C3_continuity_image_iff_prev_success_and_extraction
    (gen : ℕ → ℕ → Bool → Option String) (extract : String → Bool) (bp : Blueprint) :
    (∀ k a img, Event.submit k a img ∈ (generate_scene_chain gen extract bp).1 →
      (k = 0 → img = false) ∧
      (∀ k', k = k' + 1 →
        (img = true ↔ ∃ f,
          (sceneState gen extract (bp.scene_breakdown.getD []).length k').2 = some f ∧
          extract f = true))) ∧
    (∀ k f, k + 1 < (bp.scene_breakdown.getD []).length →
      (∀ m, m < k →
        ((sceneState gen extract (bp.scene_breakdown.getD []).length m).2).isSome) →
      (sceneState gen extract (bp.scene_breakdown.getD []).length k).2 = some f →
      extract f = false →
      Event.submit (k + 1) 0 false ∈ (generate_scene_chain gen extract bp).1) := by
  constructor
  · intro k a img hm
    cases hemp : (bp.scene_breakdown.getD []).isEmpty with
    | true => simp [generate_scene_chain, hemp] at hm
    | false =>
      rw [generate_chain_fst gen extract bp hemp] at hm
      obtain h | ⟨k2, a2, img2, he, hik, hlt, ha2, himg⟩ :=
        chainLoop_events gen extract (bp.scene_breakdown.getD []).length
          (bp.scene_breakdown.getD []).length 0 false (by omega) rfl rfl _ hm
      · exact absurd h (by simp)
      · injection he with e1 e2 e3
        subst e1; subst e2; subst e3
        constructor
        · intro hk0; subst hk0; rw [himg]; rfl
        · intro k' hk'
          subst hk'
          rw [himg]
          cases hst : (sceneState gen extract (bp.scene_breakdown.getD []).length k').2 with
          | none =>
            have h0 : (sceneState gen extract (bp.scene_breakdown.getD []).length
                (k' + 1)).1 = false := by
              simp [sceneState, hst]
            rw [h0]; simp
          | some f =>
            rw [sceneState_succ_of_some gen extract (bp.scene_breakdown.getD []).length
              k' f hst]
            simp [hlt, hst]
  · intro k f hk1 hprev hst hextract
    have hemp := notEmpty_of_lt_length bp (k + 1) hk1
    rw [generate_chain_fst gen extract bp hemp]
    have himg1 : (sceneState gen extract (bp.scene_breakdown.getD []).length (k + 1)).1
        = false := by
      rw [sceneState_succ_of_some gen extract (bp.scene_breakdown.getD []).length k f hst]
      simp [hextract, hk1]
    have hmem := chainLoop_attempts gen extract (bp.scene_breakdown.getD []).length
      (bp.scene_breakdown.getD []).length 0 false (by omega) rfl rfl (k + 1)
      (by omega) hk1 ?_
    · rw [himg1] at hmem; exact hmem
    · intro m _ hmlt
      by_cases hmk : m = k
      · subst hmk; rw [hst]; rfl
      · exact hprev m (by omega)

/-- C10: generate_scene_chain raises ValueError exactly when the blueprint's
scene_breakdown key is missing or maps to an empty list, and in that case the
trace is empty: no remote submission is made.  For every other blueprint the
function returns a value (possibly None) instead of raising. -/
theorem C10_empty_scene_breakdown_value_error
    (gen : ℕ → ℕ → Bool → Option String) (extract : String → Bool) (bp : Blueprint) :
    ((bp.scene_breakdown = none ∨ bp.scene_breakdown = some []) ↔
      (generate_scene_chain gen extract bp).2 = ChainOutcome.valueError) ∧
    ((generate_scene_chain gen extract bp).2 = ChainOutcome.valueError →
      (generate_scene_chain gen extract bp).1 = []) ∧
    ((bp.scene_breakdown ≠ none ∧ bp.scene_breakdown ≠ some []) →
      ∃ r, (generate_scene_chain gen extract bp).2 = ChainOutcome.result r) := by
  rcases bp with ⟨bid, sb⟩
  cases sb with
  | none => simp [generate_scene_chain]
  | some l =>
    cases l with
    | nil => simp [generate_scene_chain]
    | cons s t => simp [generate_scene_chain]

/-- Oracle for witnesses: every generation attempt succeeds. -/
def genAll : ℕ → ℕ → Bool → Option String := fun _ _ _ => some "clip"

/-- Oracle for witnesses: scene 0 always fails, all other scenes succeed. -/
def genFail0 : ℕ → ℕ → Bool → Option String := fun i _ _ =>
  if i = 0 then none else some "clip"

/-- Oracle for witnesses: frame extraction always succeeds. -/
def extractTrue : String → Bool := fun _ => true

/-- Oracle for witnesses: frame extraction always fails. -/
def extractFalse : String → Bool := fun _ => false

/-- A concrete two-scene blueprint. -/
def bpTwo : Blueprint :=
  ⟨"bp-two-scenes", some [⟨1, 8, "initial", "p1"⟩, ⟨2, 8, "continuation", "p2"⟩]⟩

/-- A concrete blueprint whose scene_breakdown key is missing. -/
def bpNoScenes : Blueprint := ⟨"bp-missing", none⟩

/-- Witness for C1 at a concrete all-success run of a two-scene blueprint. -/
theorem C1_witness :
    (["clip", "clip"] : List String).length = (bpTwo.scene_breakdown.getD []).length ∧
    ∀ j, j < (bpTwo.scene_breakdown.getD []).length →
      ∃ f, (["clip", "clip"] : List String).get? j = some f ∧
        (sceneState genAll extractTrue (bpTwo.scene_breakdown.getD []).length j).2 = some f ∧
        ∃ a, a ≤ max_retries ∧
          genAll j a
            ((sceneState genAll extractTrue (bpTwo.scene_breakdown.getD []).length j).1) =
            some f :=
  C1_successful_chain_returns_one_clip_per_scene genAll extractTrue bpTwo
    ["clip", "clip"] (by rfl)

/-- Witness for C2 at a concrete run where scene 0 always fails. -/
theorem C2_witness :
    (generate_scene_chain genFail0 extractTrue bpTwo).2 = ChainOutcome.result none ∧
    submitsFor 0 (generate_scene_chain genFail0 extractTrue bpTwo).1 = 1 + max_retries ∧
    (∀ k' a img,
      Event.submit k' a img ∈ (generate_scene_chain genFail0 extractTrue bpTwo).1 →
      k' ≤ 0) ∧
    ∃ pre, (generate_scene_chain genFail0 extractTrue bpTwo).1 =
        pre ++ failTrace 0
          ((sceneState genFail0 extractTrue (bpTwo.scene_breakdown.getD []).length 0).1) ∧
      ∀ k' a img, Event.submit k' a img ∈ pre → k' < 0 :=
  C2_retry_exhaustion_aborts_whole_chain genFail0 extractTrue bpTwo 0 (by decide)
    (fun m hm => absurd hm (by omega)) (fun a img => rfl)

/-- Witness for C3 at a concrete run where scene 0 succeeds but frame
extraction fails: scene 1 is still submitted, without a continuity image. -/
theorem C3_witness :
    Event.submit 1 0 false ∈ (generate_scene_chain genAll extractFalse bpTwo).1 :=
  (C3_continuity_image_iff_prev_success_and_extraction genAll extractFalse bpTwo).2 0 "clip"
    (by decide) (fun m hm => absurd hm (by omega)) (by rfl) rfl

/-- Witness for C10 at a blueprint with no scene_breakdown key. -/
theorem C10_witness :
    (generate_scene_chain genAll extractTrue bpNoScenes).2 = ChainOutcome.valueError ∧
    (generate_scene_chain genAll extractTrue bpNoScenes).1 = [] := by
  have h := C10_empty_scene_breakdown_value_error genAll extractTrue bpNoScenes
  exact ⟨h.1.mp (Or.inl rfl), h.2.1 (h.1.mp (Or.inl rfl))⟩

end VeoChain

namespace Poller

/-- One entry of the `videos` array of a completed VEO operation response;
`gcsUri = none` models a video object without a `gcsUri` key
(`videos[0].get('gcsUri')` returning `None`). -/
structure Video where
  gcsUri : Option String
  deriving Repr, DecidableEq

/-- The backend's answer to one poll of `fetchPredictOperation`, as seen by
`_poll_operation_completion`: a non-200 HTTP status, a 200 response with
`done` false, a 200 response with `done` true carrying a `videos` array, or a
raised `requests` exception. -/
inductive PollResponse where
  | httpError (status : ℕ) (body : String)
  | pending
  | doneWith (videos : List Video)
  | exception (msg : String)
  deriving Repr, DecidableEq

/-- Poll budget `max_attempts = 40` from `_poll_operation_completion`. -/
def max_attempts : ℕ := 40

/-- The polling loop of `_poll_operation_completion`
(`while attempts < max_attempts`).  `resp a` is the backend's answer when the
`attempts` counter equals `a` (the counter is incremented exactly on the
`done = false` branch and on the exception branch, so it also counts loop
iterations).  Arguments: current `attempts` value, remaining permitted
iterations `max_attempts - attempts`.  A non-200 status returns `None`
immediately; `done` with an empty `videos` array, a missing `gcsUri`, or an
empty-string `gcsUri` (falsy in `if video_gcs_uri`) returns `None`; running
out of attempts (the wall-clock timeout) returns `None`. -/
def pollLoop (resp : ℕ → PollResponse) : ℕ → ℕ → Option String
  | _, 0 => none
  | attempts, fuel + 1 =>
    match resp attempts with
    | PollResponse.httpError _ _ => none
    | PollResponse.pending => pollLoop resp (attempts + 1) fuel
    | PollResponse.exception _ => pollLoop resp (attempts + 1) fuel
    | PollResponse.doneWith videos =>
      match videos with
      | [] => none
      | v :: _ =>
        match v.gcsUri with
        | none => none
        | some uri => if uri = "" then none else some uri

/-- VEOChainGenerator._poll_operation_completion: the poll loop entered with
`attempts = 0` and the full budget of 40 iterations. -/
def poll_operation_completion (resp : ℕ → PollResponse) : Option String :=
  pollLoop resp 0 max_attempts

/-- A response is non-terminal when the loop keeps polling after it:
`done` false or a raised exception. -/
def nonTerminal (r : PollResponse) : Prop :=
  r = PollResponse.pending ∨ ∃ m, r = PollResponse.exception m

lemma pollLoop_success (resp : ℕ → PollResponse) :
    ∀ fuel attempts uri, pollLoop resp attempts fuel = some uri →
      ∃ a, attempts ≤ a ∧ a < attempts + fuel ∧
        (∀ b, attempts ≤ b → b < a → nonTerminal (resp b)) ∧
        ∃ v vs, resp a = PollResponse.doneWith (v :: vs) ∧
          v.gcsUri = some uri ∧ uri ≠ "" := by
  intro fuel
  induction fuel with
  | zero => intro attempts uri h; simp [pollLoop] at h
  | succ n ih =>
    intro attempts uri h
    cases hr : resp attempts with
    | httpError st body => simp only [pollLoop, hr] at h; cases h
    | pending =>
      simp only [pollLoop, hr] at h
      obtain ⟨a, h1, h2, h3, h4⟩ := ih (attempts + 1) uri h
      refine ⟨a, by omega, by omega, ?_, h4⟩
      intro b hb1 hb2
      by_cases hb : b = attempts
      · subst hb; exact Or.inl hr
      · exact h3 b (by omega) hb2
    | exception m =>
      simp only [pollLoop, hr] at h
      obtain ⟨a, h1, h2, h3, h4⟩ := ih (attempts + 1) uri h
      refine ⟨a, by omega, by omega, ?_, h4⟩
      intro b hb1 hb2
      by_cases hb : b = attempts
      · subst hb; exact Or.inr ⟨m, hr⟩
      · exact h3 b (by omega) hb2
    | doneWith videos =>
      cases videos with
      | nil => simp only [pollLoop, hr] at h; cases h
      | cons v vs =>
        cases hu : v.gcsUri with
        | none => simp only [pollLoop, hr, hu] at h; cases h
        | some uri' =>
          simp only [pollLoop, hr, hu] at h
          by_cases he : uri' = ""
          · rw [if_pos he] at h; cases h
          · rw [if_neg he] at h
            refine ⟨attempts, le_refl _, by omega, fun b hb1 hb2 => by omega, v, vs, hr, ?_, ?_⟩
            · rw [hu]; exact congrArg _ (by injection h)
            · injection h with h'; rw [← h']; exact he

lemma pollLoop_none_of_bad_done (resp : ℕ → PollResponse) :
    ∀ fuel attempts a, attempts ≤ a → a < attempts + fuel →
      (∀ b, attempts ≤ b → b < a → nonTerminal (resp b)) →
      (resp a = PollResponse.doneWith [] ∨
        ∃ v vs, resp a = PollResponse.doneWith (v :: vs) ∧
          (v.gcsUri = none ∨ v.gcsUri = some "")) →
      pollLoop resp attempts fuel = none := by
  intro fuel
  induction fuel with
  | zero => intro attempts a h1 h2 _ _; omega
  | succ n ih =>
    intro attempts a h1 h2 hpre hbad
    by_cases ha : a = attempts
    · subst ha
      rcases hbad with h | ⟨v, vs, h, hu⟩
      · simp [pollLoop, h]
      · rcases hu with hu | hu
        · simp [pollLoop, h, hu]
        · simp [pollLoop, h, hu]
    · have hnt := hpre attempts (le_refl _) (by omega)
      rcases hnt with h | ⟨m, h⟩
      · simp only [pollLoop, h]
        exact ih (attempts + 1) a (by omega) (by omega)
          (fun b hb1 hb2 => hpre b (by omega) hb2) hbad
      · simp only [pollLoop, h]
        exact ih (attempts + 1) a (by omega) (by omega)
          (fun b hb1 hb2 => hpre b (by omega) hb2) hbad

lemma pollLoop_none_of_nonTerminal (resp : ℕ → PollResponse) :
    ∀ fuel attempts,
      (∀ a, attempts ≤ a → a < attempts + fuel → nonTerminal (resp a)) →
      pollLoop resp attempts fuel = none := by
  intro fuel
  induction fuel with
  | zero => intro attempts _; simp [pollLoop]
  | succ n ih =>
    intro attempts hnt
    rcases hnt attempts (le_refl _) (by omega) with h | ⟨m, h⟩
    · simp only [pollLoop, h]
      exact ih (attempts + 1) (fun a ha1 ha2 => hnt a (by omega) (by omega))
    · simp only [pollLoop, h]
      exact ih (attempts + 1) (fun a ha1 ha2 => hnt a (by omega) (by omega))

/-- C7: the poller returns an asset reference only for a poll sequence whose
first terminal answer is done with a non-empty videos array whose first entry
has a non-empty gcsUri; and a done answer with an empty videos array, a
missing gcsUri, or an empty gcsUri is classified as failure (None), never as
success with a null asset. -/
theorem C7_done_without_asset_is_failure :
    (∀ (resp : ℕ → PollResponse) (uri : String),
      poll_operation_completion resp = some uri →
      ∃ a, a < max_attempts ∧ (∀ b, b < a → nonTerminal (resp b)) ∧
        ∃ v vs, resp a = PollResponse.doneWith (v :: vs) ∧
          v.gcsUri = some uri ∧ uri ≠ "") ∧
    (∀ (resp : ℕ → PollResponse) (a : ℕ), a < max_attempts →
      (∀ b, b < a → nonTerminal (resp b)) →
      (resp a = PollResponse.doneWith [] ∨
        ∃ v vs, resp a = PollResponse.doneWith (v :: vs) ∧
          (v.gcsUri = none ∨ v.gcsUri = some "")) →
      poll_operation_completion resp = none) := by
  constructor
  · intro resp uri h
    obtain ⟨a, h1, h2, h3, h4⟩ := pollLoop_success resp max_attempts 0 uri h
    exact ⟨a, by omega, fun b hb => h3 b (by omega) hb, h4⟩
  · intro resp a ha hpre hbad
    exact pollLoop_none_of_bad_done resp max_attempts 0 a (by omega) (by omega)
      (fun b _ hb2 => hpre b hb2) hbad

/-- Concrete poll sequence for the C7 witness: immediately done with one
video that has a usable gcsUri. -/
def respGood : ℕ → PollResponse := fun _ =>
  PollResponse.doneWith [⟨some "gs://bucket/video.mp4"⟩]

/-- Witness for C7 at a concrete successful poll sequence. -/
theorem C7_witness :
    poll_operation_completion respGood = some "gs://bucket/video.mp4" ∧
    ∃ a, a < max_attempts ∧ (∀ b, b < a → nonTerminal (respGood b)) ∧
      ∃ v vs, respGood a = PollResponse.doneWith (v :: vs) ∧
        v.gcsUri = some "gs://bucket/video.mp4" ∧ "gs://bucket/video.mp4" ≠ "" :=
  ⟨rfl, C7_done_without_asset_is_failure.1 respGood "gs://bucket/video.mp4" rfl⟩

/-- Concrete poll sequence that never reaches a terminal state: the poller
runs out of its 40 attempts (the wall-clock timeout). -/
def respTimeout : ℕ → PollResponse := fun _ => PollResponse.pending

/-- Concrete poll sequence whose first answer is an HTTP 500 (an explicit
backend poll failure). -/
def respHttpError : ℕ → PollResponse := fun _ => PollResponse.httpError 500 "error"

/-- Concrete poll sequence whose first answer is done with an empty videos
array (an empty-result completion). -/
def respDoneEmpty : ℕ → PollResponse := fun _ => PollResponse.doneWith []

/-- Counterexample for C8: the wall-clock timeout is NOT surfaced as a
distinct outcome.  A timed-out poll sequence, an explicit backend poll
failure and an empty-result completion all make `_poll_operation_completion`
return the very same value, `None`; no PollTimeoutError exists in the code. -/
theorem C8_counterexample :
    poll_operation_completion respTimeout = none ∧
    poll_operation_completion respHttpError = none ∧
    poll_operation_completion respDoneEmpty = none ∧
    poll_operation_completion respTimeout = poll_operation_completion respHttpError ∧
    poll_operation_completion respTimeout = poll_operation_completion respDoneEmpty := by
  refine ⟨rfl, rfl, rfl, rfl, rfl⟩

/-- C8 amended: every non-success outcome of the poller is collapsed into the
same silently-empty `None`: any poll sequence that never reaches a terminal
answer within the 40 attempts (timeout) returns `None`, exactly the value
returned for an explicit HTTP poll failure and for a done-with-no-asset
completion.  Only success versus failure is distinguishable from the returned
value. -/
theorem C8_amended_all_failures_collapse_to_none :
    (∀ resp : ℕ → PollResponse,
      (∀ a, a < max_attempts → nonTerminal (resp a)) →
      poll_operation_completion resp = none) ∧
    poll_operation_completion respHttpError = none ∧
    poll_operation_completion respDoneEmpty = none ∧
    (∀ resp : ℕ → PollResponse,
      (∀ a, a < max_attempts → nonTerminal (resp a)) →
      poll_operation_completion resp = poll_operation_completion respHttpError) := by
  have hto : ∀ resp : ℕ → PollResponse,
      (∀ a, a < max_attempts → nonTerminal (resp a)) →
      poll_operation_completion resp = none := by
    intro resp h
    exact pollLoop_none_of_nonTerminal resp max_attempts 0 (fun a _ ha2 => h a (by omega))
  exact ⟨hto, rfl, rfl, fun resp h => (hto resp h).trans rfl⟩

/-- Witness for the amended C8 at the concrete always-pending sequence. -/
theorem C8_amended_witness :
    poll_operation_completion respTimeout = none :=
  C8_amended_all_failures_collapse_to_none.1 respTimeout (fun a _ => Or.inl rfl)

end Poller

namespace FFmpegStitch

/-- `crossfade_duration = 0.5` from `_stitch_with_crossfades_only`. -/
def crossfade_duration : ℚ := 1/2

/-- `scene_duration = 8.0` from `_stitch_with_crossfades_only`. -/
def scene_duration : ℚ := 8

/-- The (duration, offset) pair passed to each chained video `xfade` filter in
`_stitch_with_crossfades_only`: for every one of the n−1 crossfades the code
uses duration 0.5 and the constant offset `offset_in_current_video =
scene_duration − crossfade_duration = 7.5`; the 2-clip branch uses the same
pair. -/
def videoXfadeParams (n : ℕ) : List (ℚ × ℚ) :=
  List.replicate (n - 1) (crossfade_duration, scene_duration - crossfade_duration)

/-- The duration `d` passed to each chained `acrossfade` audio filter: 0.5 for
each of the n−1 audio crossfades.  `acrossfade` takes no offset parameter. -/
def audioXfadeDurations (n : ℕ) : List ℚ :=
  List.replicate (n - 1) crossfade_duration

/-- `total_duration` computed and printed by the code:
`len(normalized_files) * scene_duration - (len(normalized_files) - 1) *
crossfade_duration`. -/
def totalDuration (n : ℕ) : ℚ :=
  (n : ℚ) * scene_duration - ((n - 1 : ℕ) : ℚ) * crossfade_duration

/-- Modelled from ffmpeg's documented `acrossfade` behavior (an external tool,
not repository code): crossfading a running audio stream of duration `acc`
with the next clip blends the last `d` seconds of the running stream, so the
fade starts at `acc − d` on the output timeline and the output has duration
`acc + next − d`.  Given the durations of the remaining clips, returns the
effective fade start positions of the chained audio crossfades and the final
duration. -/
def acrossfadeChain (d : ℚ) : List ℚ → ℚ → List ℚ × ℚ
  | [], acc => ([], acc)
  | next :: rest, acc =>
    let r := acrossfadeChain d rest (acc + next - d)
    ((acc - d) :: r.1, r.2)

/-- Effective audio crossfade start positions for n uniform 8-second clips. -/
def audioEffectiveOffsets (n : ℕ) : List ℚ :=
  (acrossfadeChain crossfade_duration
    (List.replicate (n - 1) scene_duration) scene_duration).1

/-- Final duration of the chained audio stream for n uniform 8-second clips. -/
def audioFinalDuration (n : ℕ) : ℚ :=
  (acrossfadeChain crossfade_duration
    (List.replicate (n - 1) scene_duration) scene_duration).2

/-- Modelled from ffmpeg's documented `xfade` behavior (an external tool, not
repository code): `xfade` with parameters `(d, off)` starts the transition at
`off` on the running stream's own timeline (which coincides with the output
timeline) and produces an output of duration `off + next`, where the next
clip is 8 seconds long for every parameter pair the code generates.  Returns
the effective fade start positions and the final duration of the chained
video stream. -/
def xfadeChain : List (ℚ × ℚ) → ℚ → List ℚ × ℚ
  | [], acc => ([], acc)
  | (_, off) :: rest, _ =>
    let r := xfadeChain rest (off + scene_duration)
    (off :: r.1, r.2)

/-- Effective video crossfade start positions for n uniform 8-second clips. -/
def videoEffectiveOffsets (n : ℕ) : List ℚ :=
  (xfadeChain (videoXfadeParams n) scene_duration).1

/-- Final duration of the chained video stream for n uniform 8-second clips. -/
def videoFinalDuration (n : ℕ) : ℚ :=
  (xfadeChain (videoXfadeParams n) scene_duration).2

/-- C5: evaluation of the code at the failing input, 3 normalized 8-second
clips.  The audio and video crossfade durations are identical (0.5 each), but
the offsets are not: the code passes the constant offset 7.5 to every chained
video `xfade`, so the second video crossfade starts 7.5 s into the combined
stream (truncating it to 15.5 s), while the chained `acrossfade` necessarily
starts the second audio crossfade at 15.0 s and yields a 23-second audio
stream.  The audio and video transition chains therefore do NOT use identical
offsets, contradicting the code's own comments ("Use IDENTICAL duration and
timing as video crossfades"). -/
theorem C5_audio_video_crossfade_desync_at_three_clips :
    audioXfadeDurations 3 = [1/2, 1/2] ∧
    (videoXfadeParams 3).map Prod.fst = [1/2, 1/2] ∧
    (videoXfadeParams 3).map Prod.snd = [15/2, 15/2] ∧
    videoEffectiveOffsets 3 = [15/2, 15/2] ∧
    audioEffectiveOffsets 3 = [15/2, 15] ∧
    videoEffectiveOffsets 3 ≠ audioEffectiveOffsets 3 ∧
    videoFinalDuration 3 = 31/2 ∧
    audioFinalDuration 3 = 23 := by
  have h4 : videoEffectiveOffsets 3 = [15/2, 15/2] := by
    norm_num [videoEffectiveOffsets, videoXfadeParams, xfadeChain, crossfade_duration,
      scene_duration, List.replicate]
  have h5 : audioEffectiveOffsets 3 = [15/2, 15] := by
    norm_num [audioEffectiveOffsets, acrossfadeChain, crossfade_duration,
      scene_duration, List.replicate]
  refine ⟨?_, ?_, ?_, h4, h5, ?_, ?_, ?_⟩
  · norm_num [audioXfadeDurations, crossfade_duration, List.replicate]
  · norm_num [videoXfadeParams, crossfade_duration, scene_duration, List.replicate]
  · norm_num [videoXfadeParams, crossfade_duration, scene_duration, List.replicate]
  · rw [h4, h5]; norm_num
  · norm_num [videoFinalDuration, videoXfadeParams, xfadeChain, crossfade_duration,
      scene_duration, List.replicate]
  · norm_num [audioFinalDuration, acrossfadeChain, crossfade_duration,
      scene_duration, List.replicate]

/-- Which strategy of the compositor produced the final file. -/
inductive StitchOutput where
  | crossfaded
  | concatenated
  deriving Repr, DecidableEq

/-- FFmpegPipeline._normalize_videos with the per-clip ffmpeg subprocess as an
oracle (`norm f = true` iff the subprocess exits 0): returns `None` as soon as
one clip fails to normalize, otherwise the list of normalized files. -/
def normalize_videos (norm : String → Bool) : List String → Option (List String)
  | [] => some []
  | f :: rest =>
    if norm f then (normalize_videos norm rest).map fun l => f :: l
    else none

/-- FFmpegPipeline._stitch_with_crossfades_only with the external ffmpeg
invocations as oracles: per-clip normalization (`norm`), the crossfade
filter-graph command (`xfadeOk`) and the fallback concat command of
`_fallback_basic_concat` (`concatOk`).  The code returns `None` when
normalization fails (without attempting any fallback), the crossfaded output
when the crossfade command succeeds, the fallback concatenation when the
crossfade command fails and the concat command succeeds, and `None` when both
commands fail. -/
def stitch_with_crossfades_only (norm : String → Bool) (xfadeOk concatOk : Bool)
    (files : List String) : Option StitchOutput :=
  match normalize_videos norm files with
  | none => none
  | some _ =>
    if xfadeOk then some StitchOutput.crossfaded
    else if concatOk then some StitchOutput.concatenated
    else none

lemma normalize_videos_none (norm : String → Bool) :
    ∀ files, normalize_videos norm files = none ↔ ¬ (∀ f ∈ files, norm f = true) := by
  intro files
  induction files with
  | nil => simp [normalize_videos]
  | cons f rest ih =>
    by_cases h : norm f
    · simp [normalize_videos, h, ih]
    · simp [normalize_videos, h]

/-- Counterexample for C6: two valid input clips whose normalization step
fails.  Crossfade composition has failed, the fallback concat command would
succeed (concatOk = true), yet the compositor returns no output at all — so
it is not the case that a crossfade-composition failure leads to output via
concatenation, nor that None occurs only when both strategies fail. -/
theorem C6_counterexample :
    stitch_with_crossfades_only (fun _ => false) false true ["a", "b"] = none ∧
    stitch_with_crossfades_only (fun _ => false) true true ["a", "b"] = none :=
  ⟨rfl, rfl⟩

/-- C6 amended: the fallback holds only after successful normalization — if
every clip normalizes, the crossfade command fails and the concat command
succeeds, the output is produced via concatenation; and the compositor
returns None exactly when normalization of some clip failed (no fallback is
attempted then) or both the crossfade and the fallback concatenation
commands failed. -/
theorem C6_amended_fallback_only_after_normalization
    (norm : String → Bool) (xfadeOk concatOk : Bool) (files : List String) :
    ((∀ f ∈ files, norm f = true) → xfadeOk = false → concatOk = true →
      stitch_with_crossfades_only norm xfadeOk concatOk files =
        some StitchOutput.concatenated) ∧
    (stitch_with_crossfades_only norm xfadeOk concatOk files = none ↔
      ((¬ ∀ f ∈ files, norm f = true) ∨ (xfadeOk = false ∧ concatOk = false))) := by
  constructor
  · intro hnorm hx hc
    have h1 : ¬ (normalize_videos norm files = none) := by
      rw [normalize_videos_none]
      exact fun hcon => hcon hnorm
    obtain ⟨l, hl⟩ := Option.ne_none_iff_exists'.1 h1
    simp [stitch_with_crossfades_only, hl, hx, hc]
  · cases hn : normalize_videos norm files with
    | none =>
      simp only [stitch_with_crossfades_only, hn]
      constructor
      · intro _; exact Or.inl ((normalize_videos_none norm files).1 hn)
      · intro _; trivial
    | some l =>
      have hnn : (∀ f ∈ files, norm f = true) := by
        by_contra hcon
        rw [← normalize_videos_none norm files, hn] at hcon
        cases hcon
      cases xfadeOk
      · cases concatOk
        · simp [stitch_with_crossfades_only, hn, hnn]
        · simp [stitch_with_crossfades_only, hn, hnn]
          exact hnn
      · simp [stitch_with_crossfades_only, hn, hnn]
        exact hnn

/-- Witness for the amended C6 at concrete oracles: normalization succeeds,
the crossfade command fails, the concat command succeeds. -/
theorem C6_amended_witness :
    stitch_with_crossfades_only (fun _ => true) false true ["a", "b"] =
      some StitchOutput.concatenated :=
  (C6_amended_fallback_only_after_normalization (fun _ => true) false true
    ["a", "b"]).1 (fun f _ => rfl) rfl rfl

end FFmpegStitch

namespace MoviePyStitch

/-- The timeline-building loop of `MoviePyCrossfadePipeline.crossfade_scenes`:
the first clip starts at `current_start = 0`; after placing a clip that is
not the last, `current_start += clip.duration - crossfade_duration`; the last
clip is placed at the current start with no further update.  Returns the clip
start times, given the crossfade duration and the clip durations. -/
def timelineStartsAux (cf : ℚ) : List ℚ → ℚ → List ℚ
  | [], _ => []
  | [_], s => [s]
  | d :: d2 :: rest, s => s :: timelineStartsAux cf (d2 :: rest) (s + d - cf)

/-- Start times with the loop entered at `current_start = 0`. -/
def timelineStarts (cf : ℚ) (durs : List ℚ) : List ℚ := timelineStartsAux cf durs 0

/-- Duration of the CompositeVideoClip built from the overlapping timeline:
the maximum over all placed clips of start + duration. -/
def compositeDuration (cf : ℚ) (durs : List ℚ) : ℚ :=
  ((timelineStarts cf durs).zipWith (fun s d => s + d) durs).foldr max 0

/-- `expected_duration` printed by the code:
`sum(clip.duration) - (len(clips) - 1) * crossfade_duration`. -/
def expectedDuration (cf : ℚ) (durs : List ℚ) : ℚ :=
  durs.sum - ((durs.length - 1 : ℕ) : ℚ) * cf

lemma timelineStartsAux_replicate (cf d : ℚ) :
    ∀ m s j, j ≤ m → (timelineStartsAux cf (List.replicate (m + 1) d) s).get? j =
      some (s + (j : ℚ) * (d - cf)) := by
  intro m
  induction m with
  | zero =>
    intro s j hj
    interval_cases j
    simp [timelineStartsAux]
  | succ m ih =>
    intro s j hj
    have hrep : List.replicate (m + 1 + 1) d = d :: d :: List.replicate m d := by
      simp [List.replicate_succ]
    rw [hrep]
    cases j with
    | zero => simp [timelineStartsAux]
    | succ j' =>
      simp only [timelineStartsAux, List.get?_cons_succ]
      rw [← List.replicate_succ, ih (s + d - cf) j' (by omega)]
      congr 1
      push_cast
      ring

lemma timelineStarts_replicate_get (n j : ℕ) (hn : 1 ≤ n) (hj : j < n) :
    (timelineStarts (1/2) (List.replicate n (8 : ℚ))).get? j = some ((j : ℚ) * (15/2)) := by
  obtain ⟨m, rfl⟩ : ∃ m, n = m + 1 := ⟨n - 1, by omega⟩
  rw [timelineStarts, timelineStartsAux_replicate (1/2) 8 m 0 j (by omega)]
  congr 1
  norm_num

end MoviePyStitch

namespace CrossfadeSpec

/-- The specification's cumulative-duration formula (the comparison
definition for the numerical claim, written from the spec's words, not from
the source): for uniform 8-second clips and 0.5-second crossfades, the
cumulative timeline duration of the first j clips is 8 for j = 1, and each
further crossfaded clip adds `8 − 0.5`; crossfade i begins at
`cumDur i − 0.5`. -/
def cumDur : ℕ → ℚ
  | 0 => 0
  | j + 1 => if j = 0 then 8 else cumDur j + 8 - 1/2

lemma cumDur_succ_closed : ∀ j : ℕ, cumDur (j + 1) = 8 * ((j : ℚ) + 1) - (j : ℚ) / 2 := by
  intro j
  induction j with
  | zero => norm_num [cumDur]
  | succ m ih =>
    have h : cumDur (m + 1 + 1) = cumDur (m + 1) + 8 - 1/2 := by
      rw [cumDur]; simp
    rw [h, ih]
    push_cast
    ring

end CrossfadeSpec

/-- C4 amended: the MoviePy crossfade compositor's start-time arithmetic
satisfies the cumulative formula for every chain length N ≥ 2 with uniform
8-second clips and 0.5-second crossfades — crossfade i begins (clip i+1
starts) at `cumDur i − 0.5` — with the claimed concrete values: 2 clips give
offset 7.5; 5 clips give successive cumulative durations 15.5, 23.0, 30.5,
38.0 and composed duration 38.0, which also equals the ffmpeg pipeline's
total-duration formula at N = 5; the ffmpeg pipeline's 2-clip crossfade
offset is likewise 7.5.  The ffmpeg pipeline, however, passes the constant
offset 7.5 to every chained crossfade for N ≥ 3 instead of the cumulative
offset. -/
theorem C4_cumulative_crossfade_arithmetic :
    (∀ n i, 1 ≤ i → i < n →
      (MoviePyStitch.timelineStarts (1/2) (List.replicate n (8 : ℚ))).get? i =
        some (CrossfadeSpec.cumDur i - 1/2)) ∧
    MoviePyStitch.timelineStarts (1/2) (List.replicate 2 (8 : ℚ)) = [0, 15/2] ∧
    MoviePyStitch.timelineStarts (1/2) (List.replicate 5 (8 : ℚ)) =
      [0, 15/2, 15, 45/2, 30] ∧
    (CrossfadeSpec.cumDur 2 = 31/2 ∧ CrossfadeSpec.cumDur 3 = 23 ∧
      CrossfadeSpec.cumDur 4 = 61/2 ∧ CrossfadeSpec.cumDur 5 = 38) ∧
    MoviePyStitch.compositeDuration (1/2) (List.replicate 5 (8 : ℚ)) = 38 ∧
    MoviePyStitch.expectedDuration (1/2) (List.replicate 5 (8 : ℚ)) = 38 ∧
    FFmpegStitch.totalDuration 5 = 38 ∧
    FFmpegStitch.videoXfadeParams 2 = [(1/2, 15/2)] ∧
    (∀ n, 3 ≤ n → (FFmpegStitch.videoXfadeParams n).map Prod.snd =
      List.replicate (n - 1) (15/2)) := by
  refine ⟨?_,
    by norm_num [MoviePyStitch.timelineStarts, MoviePyStitch.timelineStartsAux,
      List.replicate],
    by norm_num [MoviePyStitch.timelineStarts, MoviePyStitch.timelineStartsAux,
      List.replicate],
    ⟨by norm_num [CrossfadeSpec.cumDur], by norm_num [CrossfadeSpec.cumDur],
      by norm_num [CrossfadeSpec.cumDur], by norm_num [CrossfadeSpec.cumDur]⟩,
    by norm_num [MoviePyStitch.compositeDuration, MoviePyStitch.timelineStarts,
      MoviePyStitch.timelineStartsAux, List.replicate],
    by norm_num [MoviePyStitch.expectedDuration, List.replicate],
    by norm_num [FFmpegStitch.totalDuration, FFmpegStitch.scene_duration,
      FFmpegStitch.crossfade_duration],
    by norm_num [FFmpegStitch.videoXfadeParams, FFmpegStitch.crossfade_duration,
      FFmpegStitch.scene_duration, List.replicate], ?_⟩
  · intro n i hi hin
    rw [MoviePyStitch.timelineStarts_replicate_get n i (by omega) hin]
    obtain ⟨j, rfl⟩ : ∃ j, i = j + 1 := ⟨i - 1, by omega⟩
    rw [CrossfadeSpec.cumDur_succ_closed]
    congr 1
    push_cast
    ring
  · intro n _
    simp only [FFmpegStitch.videoXfadeParams, List.map_replicate]
    norm_num [FFmpegStitch.crossfade_duration, FFmpegStitch.scene_duration]

/-- Witness for the amended C4 at N = 5, crossfade 2. -/
theorem C4_witness :
    (MoviePyStitch.timelineStarts (1/2) (List.replicate 5 (8 : ℚ))).get? 2 =
      some (CrossfadeSpec.cumDur 2 - 1/2) :=
  C4_cumulative_crossfade_arithmetic.1 5 2 (by omega) (by omega)

namespace Captions

/-- One style preset of the `text_styles` dict (identical in
MoviePyPipeline and MoviePyCrossfadePipeline). -/
structure TextStyle where
  font_size : ℕ
  color : String
  stroke_width : ℕ
  deriving Repr, DecidableEq

/-- The `default` preset: font size 48, white, stroke width 2. -/
def defaultStyle : TextStyle := ⟨48, "white", 2⟩

/-- The `emphasis` preset: font size 52, gold, stroke width 3. -/
def emphasisStyle : TextStyle := ⟨52, "#FFD700", 3⟩

/-- The `large` preset: font size 56, white, stroke width 2. -/
def largeStyle : TextStyle := ⟨56, "white", 2⟩

/-- The three defined presets of `text_styles`. -/
def text_styles : List TextStyle := [defaultStyle, emphasisStyle, largeStyle]

/-- Canvas of MoviePyCrossfadePipeline.add_text_overlays:
`canvas_width = int(video_width * 0.95)` and `canvas_height = font_size * 6`.
Integer floor division `w * 95 / 100` agrees with the Python float
truncation: the float 0.95 is minimally above the rational 95/100, and for
any video width the product is far enough from the next integer that the
truncations coincide. -/
def canvasCrossfade (w : ℕ) (s : TextStyle) : ℕ × ℕ :=
  (w * 95 / 100, s.font_size * 6)

/-- Canvas of MoviePyPipeline._add_text_overlays_moviepy:
`canvas_width = int(video_width * 0.8)` and `canvas_height = font_size * 2`. -/
def canvasMoviepy (w : ℕ) (s : TextStyle) : ℕ × ℕ :=
  (w * 80 / 100, s.font_size * 2)

/-- Placement arithmetic of MoviePyCrossfadePipeline.add_text_overlays for a
rendered text clip of measured size text_width × text_height (MoviePy renders
the clip inside the requested canvas, so the measured size is bounded by the
canvas) on a video_width × video_height frame:
`x_pos = (video_width - text_width) / 2` (never clamped),
`max_y = max(0, int(video_height - text_height))`,
`y_pos = max(0, min(max_y, video_height * 0.8 - text_height / 2))`. -/
def placeCrossfade (w h tw th : ℕ) : ℚ × ℚ :=
  let maxY : ℤ := max 0 ((h : ℤ) - (th : ℤ))
  let x : ℚ := ((w : ℚ) - (tw : ℚ)) / 2
  let y0 : ℚ := (h : ℚ) * (8/10) - (th : ℚ) / 2
  (x, max 0 (min (maxY : ℚ) y0))

/-- Placement arithmetic of MoviePyPipeline._add_text_overlays_moviepy: same
as the crossfade pipeline but with the vertical target
`y_pos = video_height * 0.85 - text_height / 2` before clamping. -/
def placeMoviepy (w h tw th : ℕ) : ℚ × ℚ :=
  let maxY : ℤ := max 0 ((h : ℤ) - (th : ℤ))
  let x : ℚ := ((w : ℚ) - (tw : ℚ)) / 2
  let y0 : ℚ := (h : ℚ) * (85/100) - (th : ℚ) / 2
  (x, max 0 (min (maxY : ℚ) y0))

lemma center_bounds (w tw : ℕ) (htw : tw ≤ w) :
    0 ≤ ((w : ℚ) - (tw : ℚ)) / 2 ∧ ((w : ℚ) - (tw : ℚ)) / 2 + (tw : ℚ) ≤ (w : ℚ) := by
  have h : (tw : ℚ) ≤ (w : ℚ) := by exact_mod_cast htw
  constructor <;> linarith

lemma clamp_bounds (h th : ℕ) (y0 : ℚ) (hth : th ≤ h) :
    0 ≤ max 0 (min ((max 0 ((h : ℤ) - (th : ℤ)) : ℤ) : ℚ) y0) ∧
    max 0 (min ((max 0 ((h : ℤ) - (th : ℤ)) : ℤ) : ℚ) y0) + (th : ℚ) ≤ (h : ℚ) := by
  have hz : (0 : ℤ) ≤ (h : ℤ) - (th : ℤ) := by
    have : (th : ℤ) ≤ (h : ℤ) := by exact_mod_cast hth
    omega
  have hmax : ((max 0 ((h : ℤ) - (th : ℤ)) : ℤ) : ℚ) = (h : ℚ) - (th : ℚ) := by
    rw [max_eq_right hz]
    push_cast
    ring
  refine ⟨le_max_left 0 _, ?_⟩
  have hle : max 0 (min ((max 0 ((h : ℤ) - (th : ℤ)) : ℤ) : ℚ) y0) ≤ (h : ℚ) - (th : ℚ) := by
    rw [hmax]
    apply max_le
    · have : (th : ℚ) ≤ (h : ℚ) := by exact_mod_cast hth
      linarith
    · exact le_trans (min_le_left _ _) (le_refl _)
  linarith

lemma canvas_width_le (w c : ℕ) : w * c / 100 ≤ w * 100 / 100 → w * c / 100 ≤ w := by
  intro h
  have : w * 100 / 100 = w := by omega
  omega

/-- C9: for every measured text box that fits the caption canvas of any of
the three defined style presets, and every frame at least as tall as that
canvas (true of the pipeline's 1080 × 1920 output for every preset), the
computed caption placement keeps the whole text box inside the frame:
`0 ≤ x`, `0 ≤ y`, `x + text_width ≤ video_width` and
`y + text_height ≤ video_height` — in both overlay engines, for any text
length, since the canvas (hence the measured box) does not grow with the
text. -/
theorem C9_caption_placement_in_bounds (s : TextStyle) (hs : s ∈ text_styles)
    (w h tw th : ℕ) :
    (tw ≤ (canvasCrossfade w s).1 → th ≤ (canvasCrossfade w s).2 →
      (canvasCrossfade w s).2 ≤ h →
      0 ≤ (placeCrossfade w h tw th).1 ∧ 0 ≤ (placeCrossfade w h tw th).2 ∧
      (placeCrossfade w h tw th).1 + (tw : ℚ) ≤ (w : ℚ) ∧
      (placeCrossfade w h tw th).2 + (th : ℚ) ≤ (h : ℚ)) ∧
    (tw ≤ (canvasMoviepy w s).1 → th ≤ (canvasMoviepy w s).2 →
      (canvasMoviepy w s).2 ≤ h →
      0 ≤ (placeMoviepy w h tw th).1 ∧ 0 ≤ (placeMoviepy w h tw th).2 ∧
      (placeMoviepy w h tw th).1 + (tw : ℚ) ≤ (w : ℚ) ∧
      (placeMoviepy w h tw th).2 + (th : ℚ) ≤ (h : ℚ)) := by
  constructor
  · intro htw hth hcan
    have htww : tw ≤ w := by
      have h1 : w * 95 / 100 ≤ w := canvas_width_le w 95 (Nat.div_le_div_right (by omega))
      have h2 : tw ≤ w * 95 / 100 := htw
      omega
    have hthh : th ≤ h := by
      have : s.font_size * 6 ≤ h := hcan
      have h2 : th ≤ s.font_size * 6 := hth
      omega
    obtain ⟨hx1, hx2⟩ := center_bounds w tw htww
    obtain ⟨hy1, hy2⟩ := clamp_bounds h th ((h : ℚ) * (8/10) - (th : ℚ) / 2) hthh
    exact ⟨hx1, hy1, hx2, hy2⟩
  · intro htw hth hcan
    have htww : tw ≤ w := by
      have h1 : w * 80 / 100 ≤ w := canvas_width_le w 80 (Nat.div_le_div_right (by omega))
      have h2 : tw ≤ w * 80 / 100 := htw
      omega
    have hthh : th ≤ h := by
      have : s.font_size * 2 ≤ h := hcan
      have h2 : th ≤ s.font_size * 2 := hth
      omega
    obtain ⟨hx1, hx2⟩ := center_bounds w tw htww
    obtain ⟨hy1, hy2⟩ := clamp_bounds h th ((h : ℚ) * (85/100) - (th : ℚ) / 2) hthh
    exact ⟨hx1, hy1, hx2, hy2⟩

/-- Witness for C9 at the default preset on a 1080 × 1920 frame with the text
box filling the whole caption canvas (1026 × 288). -/
theorem C9_witness :
    0 ≤ (placeCrossfade 1080 1920 1026 288).1 ∧
    0 ≤ (placeCrossfade 1080 1920 1026 288).2 ∧
    (placeCrossfade 1080 1920 1026 288).1 + (1026 : ℚ) ≤ (1080 : ℚ) ∧
    (placeCrossfade 1080 1920 1026 288).2 + (288 : ℚ) ≤ (1920 : ℚ) :=
  (C9_caption_placement_in_bounds defaultStyle (by simp [text_styles]) 1080 1920 1026 288).1
    (by norm_num [canvasCrossfade, defaultStyle])
    (by norm_num [canvasCrossfade, defaultStyle])
    (by norm_num [canvasCrossfade, defaultStyle])

end Captions

/-- Counterexample for C4 as stated: in the ffmpeg compositor
(`_stitch_with_crossfades_only`), with 3 clips the second crossfade is passed
offset 7.5, while the cumulative formula requires `cumDur 2 − 0.5 = 15.0`;
7.5 ≠ 15, so the claim's "for every chain length N ≥ 2 the offset at which
crossfade i begins equals the cumulative timeline duration so far minus one
crossfade duration" fails on this compositor. -/
theorem C4_counterexample :
    (FFmpegStitch.videoXfadeParams 3).get? 1 = some (1/2, 15/2) ∧
    CrossfadeSpec.cumDur 2 - 1/2 = 15 ∧ ((15 : ℚ)/2) ≠ 15 := by
  refine ⟨?_, by norm_num [CrossfadeSpec.cumDur], by norm_num⟩
  norm_num [FFmpegStitch.videoXfadeParams, FFmpegStitch.crossfade_duration,
    FFmpegStitch.scene_duration, List.replicate]

end Trillboards
